import Mathlib

/-!
Shallow embedding of the libosmscout type/tag schema engine
(`TypeConfig.cpp` and the `TypeFeature.h` interface): tag registry,
tag-condition evaluation, feature schema, feature value buffers with
binary serialization, type classification and schema persistence.
All definitions are translated from the C++ source; collaborator
primitives that are not part of the source (the byte-stream
scanner/writer, `StringToNumber`, and a few trivial accessors declared
only in the missing headers) are modelled from the specification and
marked as such in their doc comments.
-/

set_option autoImplicit false

namespace Osmscout

/-! ## Generic association-list helpers

`std::map` / `OSMSCOUT_HASHMAP` lookups are modelled by association
lists.  `assocFind` mirrors `find` (first matching key wins),
`assocInsertKeepOld` mirrors `std::unordered_map::insert` /
`std::map::insert` (which keeps the old value on a duplicate key) and
`assocInsertReplace` mirrors `operator[]=` assignment.
-/

def assocFind {α β : Type} [DecidableEq α] (k : α) : List (α × β) → Option β
  | [] => none
  | (k', v) :: rest => if k' = k then some v else assocFind k rest

def assocInsertKeepOld {α β : Type} [DecidableEq α] (k : α) (v : β)
    (l : List (α × β)) : List (α × β) :=
  match assocFind k l with
  | some _ => l
  | none => l ++ [(k, v)]

def assocInsertReplace {α β : Type} [DecidableEq α] (k : α) (v : β) :
    List (α × β) → List (α × β)
  | [] => [(k, v)]
  | (k', v') :: rest =>
      if k' = k then (k, v) :: rest else (k', v') :: assocInsertReplace k v rest

/-- `modifyIdx l i f` applies `f` to the `i`-th element (mirrors
`vector[i] = f(vector[i])`). -/
def modifyIdx {α : Type} : List α → Nat → (α → α) → List α
  | [], _, _ => []
  | a :: rest, 0, f => f a :: rest
  | a :: rest, n + 1, f => a :: modifyIdx rest n f

theorem assocFind_mem {α β : Type} [DecidableEq α] {k : α} {v : β} :
    ∀ {l : List (α × β)}, assocFind k l = some v → (k, v) ∈ l := by
  intro l
  induction l with
  | nil => intro h; simp [assocFind] at h
  | cons p rest ih =>
      intro h
      by_cases hk : p.1 = k
      · simp [assocFind, hk] at h
        cases p with | mk a b =>
        simp at hk
        subst hk
        simp [assocFind] at h
        simp [h]
      · cases p with | mk a b =>
        simp [assocFind, hk] at h ⊢
        right
        exact ih h

/-! ## `StringToNumber` (collaborator, `util/String`)

Modelled from the spec: "`Compare` ... with an integer literal: the
tag's value must parse as a number, else the predicate is false" and
"parsing as a floating value".  `stringToNumberNat` parses an unsigned
decimal integer; `stringToNumberRat` parses an optionally signed
decimal with at most one point, into an exact rational (the C++ code
uses `double`; all values relevant here are exactly representable).
-/

def charDigit (c : Char) : Option Nat :=
  if c.isDigit then some (c.toNat - 48) else none

def digitsToNat : Nat → List Char → Option Nat
  | acc, [] => some acc
  | acc, c :: rest =>
      match charDigit c with
      | some d => digitsToNat (acc * 10 + d) rest
      | none => none

/-- Modelled from the spec: collaborator `StringToNumber` for unsigned
integers; accepts a non-empty all-digit string. -/
def stringToNumberNat (s : String) : Option Nat :=
  match s.data with
  | [] => none
  | cs => digitsToNat 0 cs

/-- An exact decimal number `num / 10 ^ scale`: the value the
source's `double` holds after parsing a decimal string (exact for
every decimal literal relevant here). -/
structure DecNumber where
  num : Int
  scale : Nat
  deriving DecidableEq, Repr

/-- Helper for `stringToNumberDec`: parse `digits[.digits]`. -/
def parsePointDec (cs : List Char) : Option DecNumber :=
  let intPart := cs.takeWhile Char.isDigit
  let rest := cs.dropWhile Char.isDigit
  if intPart = [] then none
  else
    match digitsToNat 0 intPart with
    | none => none
    | some n =>
        match rest with
        | [] => some ⟨(n : Int), 0⟩
        | c :: frac =>
            if c = Char.ofNat 46 then
              if frac = [] then none
              else
                match digitsToNat 0 frac with
                | none => none
                | some f => some ⟨(n : Int) * (10 : Int) ^ frac.length + (f : Int), frac.length⟩
            else none

/-- Modelled from the spec: collaborator `StringToNumber` for floating
values; parses `[-]digits[.digits]` into an exact decimal. -/
def stringToNumberDec (s : String) : Option DecNumber :=
  match s.data with
  | [] => none
  | c :: rest =>
      if c = Char.ofNat 45 then
        if rest = [] then none
        else (parsePointDec rest).map (fun d => ⟨-d.num, d.scale⟩)
      else parsePointDec (c :: rest)

/-- `w < 0` on the exact decimal value. -/
def DecNumber.isNeg (d : DecNumber) : Bool :=
  d.num < 0

/-- `w > 255.5` on the exact decimal value:
`num / 10^scale > 511/2` iff `2*num > 511 * 10^scale`. -/
def DecNumber.gtHalf511 (d : DecNumber) : Bool :=
  2 * d.num > 511 * (10 : Int) ^ d.scale

/-- `floor(w + 0.5)` on the exact decimal value:
`⌊num/10^s + 1/2⌋ = (2*num + 10^s).fdiv (2 * 10^s)`. -/
def DecNumber.floorPlusHalf (d : DecNumber) : Int :=
  (2 * d.num + (10 : Int) ^ d.scale).fdiv (2 * (10 : Int) ^ d.scale)

/-! ## Tag conditions (`TagCondition` class family)

Embedding of `TagNotCondition`, `TagBoolCondition`,
`TagExistsCondition`, `TagBinaryCondition` (string and `size_t`
variants) and `TagIsInCondition` and their `Evaluate` methods.
A tag map `std::map<TagId,std::string>` is an association list.
-/

abbrev TagId := Nat

abbrev TagMap := List (TagId × String)

inductive BinaryOperator where
  | less
  | lessEqual
  | equal
  | notEqual
  | greaterEqual
  | greater
  deriving DecidableEq, Repr

inductive TagCondition where
  | notCond (c : TagCondition)
  | boolAnd (cs : List TagCondition)
  | boolOr (cs : List TagCondition)
  | tagExists (tag : TagId)
  | binaryStr (tag : TagId) (op : BinaryOperator) (v : String)
  | binaryNum (tag : TagId) (op : BinaryOperator) (v : Nat)
  | isIn (tag : TagId) (vals : List String)
  deriving Repr

def compareStr (op : BinaryOperator) (a b : String) : Bool :=
  match op with
  | .less => decide (a < b)
  | .lessEqual => decide (a ≤ b)
  | .equal => a = b
  | .notEqual => a ≠ b
  | .greaterEqual => decide (b ≤ a)
  | .greater => decide (b < a)

def compareNat (op : BinaryOperator) (a b : Nat) : Bool :=
  match op with
  | .less => a < b
  | .lessEqual => a ≤ b
  | .equal => a = b
  | .notEqual => a ≠ b
  | .greaterEqual => a ≥ b
  | .greater => a > b

mutual

/-- `TagCondition::Evaluate` for each condition variant, from the
source: missing tags make `Exists`/`Binary`/`IsIn` false, a non-numeric
tag value makes the `size_t` comparison false, `boolAnd` over a list is
the finite conjunction (empty list: true), `boolOr` the finite
disjunction (empty list: false). -/
def TagCondition.evaluate : TagCondition → TagMap → Bool
  | .notCond c, m => !(TagCondition.evaluate c m)
  | .boolAnd cs, m => evalAll cs m
  | .boolOr cs, m => evalAny cs m
  | .tagExists t, m => (assocFind t m).isSome
  | .binaryStr t op v, m =>
      match assocFind t m with
      | none => false
      | some s => compareStr op s v
  | .binaryNum t op v, m =>
      match assocFind t m with
      | none => false
      | some s =>
          match stringToNumberNat s with
          | none => false
          | some n => compareNat op n v
  | .isIn t vals, m =>
      match assocFind t m with
      | none => false
      | some s => vals.contains s

def evalAll : List TagCondition → TagMap → Bool
  | [], _ => true
  | c :: cs, m => TagCondition.evaluate c m && evalAll cs m

def evalAny : List TagCondition → TagMap → Bool
  | [], _ => false
  | c :: cs, m => TagCondition.evaluate c m || evalAny cs m

end

/-! ## Byte-stream scanner and writer (collaborators)

Modelled from the spec: "a byte-stream reader/writer exposing typed
`Read(T&)`/`Write(T)`/`ReadNumber`/`WriteNumber` primitives and
error/EOF signaling".  The stream is a list of typed tokens; a short
read (end of stream or a token of the wrong shape) sets a sticky error
flag and every later read fails, as in `FileScanner`.  The writer is an
in-memory token accumulator (write errors are not modelled). -/

inductive Token where
  | num (n : Nat)
  | str (s : String)
  | boolTok (b : Bool)
  | u8 (n : Nat)
  | i8 (n : Int)
  deriving DecidableEq, Repr

structure Scanner where
  tokens : List Token
  hasError : Bool
  deriving DecidableEq, Repr

def Scanner.readNumber (s : Scanner) : Option Nat × Scanner :=
  if s.hasError then (none, s)
  else
    match s.tokens with
    | Token.num n :: rest => (some n, ⟨rest, false⟩)
    | _ => (none, ⟨s.tokens, true⟩)

def Scanner.readStr (s : Scanner) : Option String × Scanner :=
  if s.hasError then (none, s)
  else
    match s.tokens with
    | Token.str v :: rest => (some v, ⟨rest, false⟩)
    | _ => (none, ⟨s.tokens, true⟩)

def Scanner.readBool (s : Scanner) : Option Bool × Scanner :=
  if s.hasError then (none, s)
  else
    match s.tokens with
    | Token.boolTok b :: rest => (some b, ⟨rest, false⟩)
    | _ => (none, ⟨s.tokens, true⟩)

def Scanner.readU8 (s : Scanner) : Option Nat × Scanner :=
  if s.hasError then (none, s)
  else
    match s.tokens with
    | Token.u8 n :: rest => (some n, ⟨rest, false⟩)
    | _ => (none, ⟨s.tokens, true⟩)

def Scanner.readI8 (s : Scanner) : Option Int × Scanner :=
  if s.hasError then (none, s)
  else
    match s.tokens with
    | Token.i8 n :: rest => (some n, ⟨rest, false⟩)
    | _ => (none, ⟨s.tokens, true⟩)

/-! ## Feature family (`Feature` subclasses of `TypeConfig.cpp`)

The twelve concrete features of the source.  `hasValue` is
`Feature::HasValue` from `TypeFeature.h` (`GetValueSize() > 0`): the
marker features `Bridge`, `Tunnel` and `Roundabout` return value size 0
in the source, the rest return a `sizeof` of their value struct. -/

inductive FeatureKind where
  | nameF
  | nameAltF
  | refF
  | addressF
  | accessF
  | layerF
  | widthF
  | maxSpeedF
  | gradeF
  | bridgeF
  | tunnelF
  | roundaboutF
  deriving DecidableEq, Repr

def FeatureKind.hasValue : FeatureKind → Bool
  | .bridgeF | .tunnelF | .roundaboutF => false
  | _ => true

/-- The runtime feature values (`FeatureValue` subclasses): the
kind-specific payload fields of each value struct. -/
inductive FValue where
  | nameV (s : String)
  | nameAltV (s : String)
  | refV (s : String)
  | addressV (location address : String)
  | accessV (n : Nat)
  | layerV (n : Int)
  | widthV (n : Nat)
  | maxSpeedV (n : Nat)
  | gradeV (n : Nat)
  deriving DecidableEq, Repr

def FValue.kind : FValue → FeatureKind
  | .nameV _ => .nameF
  | .nameAltV _ => .nameAltF
  | .refV _ => .refF
  | .addressV _ _ => .addressF
  | .accessV _ => .accessF
  | .layerV _ => .layerF
  | .widthV _ => .widthF
  | .maxSpeedV _ => .maxSpeedF
  | .gradeV _ => .gradeF

/-- The tokens each feature's `Write` emits for its value (from each
`XYZFeature::Write` in the source: `Name`/`NameAlt`/`Ref` write one
string, `Address` writes location then address, `Access`/`Width`/
`MaxSpeed`/`Grade` write one `uint8_t`, `Layer` writes one `int8_t`). -/
def FValue.writeTokens : FValue → List Token
  | .nameV s => [Token.str s]
  | .nameAltV s => [Token.str s]
  | .refV s => [Token.str s]
  | .addressV l a => [Token.str l, Token.str a]
  | .accessV n => [Token.u8 n]
  | .layerV n => [Token.i8 n]
  | .widthV n => [Token.u8 n]
  | .maxSpeedV n => [Token.u8 n]
  | .gradeV n => [Token.u8 n]

/-- Each payload-carrying feature's `Read` (from each
`XYZFeature::Read` in the source).  The marker features never reach
this function because `FeatureValueBuffer::Read` only calls `Read`
for features with `HasValue()`; for them the function reports a
failure. -/
def FeatureKind.readValue : FeatureKind → Scanner → Option FValue × Scanner
  | .nameF, s =>
      match s.readStr with
      | (some v, s') => (some (.nameV v), s')
      | (none, s') => (none, s')
  | .nameAltF, s =>
      match s.readStr with
      | (some v, s') => (some (.nameAltV v), s')
      | (none, s') => (none, s')
  | .refF, s =>
      match s.readStr with
      | (some v, s') => (some (.refV v), s')
      | (none, s') => (none, s')
  | .addressF, s =>
      match s.readStr with
      | (some l, s') =>
          match s'.readStr with
          | (some a, s'') => (some (.addressV l a), s'')
          | (none, s'') => (none, s'')
      | (none, s') => (none, s')
  | .accessF, s =>
      match s.readU8 with
      | (some v, s') => (some (.accessV v), s')
      | (none, s') => (none, s')
  | .layerF, s =>
      match s.readI8 with
      | (some v, s') => (some (.layerV v), s')
      | (none, s') => (none, s')
  | .widthF, s =>
      match s.readU8 with
      | (some v, s') => (some (.widthV v), s')
      | (none, s') => (none, s')
  | .maxSpeedF, s =>
      match s.readU8 with
      | (some v, s') => (some (.maxSpeedV v), s')
      | (none, s') => (none, s')
  | .gradeF, s =>
      match s.readU8 with
      | (some v, s') => (some (.gradeV v), s')
      | (none, s') => (none, s')
  | _, s => (none, s)

/-! ## Feature value buffer (`FeatureValueBuffer`)

The buffer bound to a type: the presence bitset is kept exactly as in
the source, as an array of `GetFeatureBytes()` bytes with bit `idx`
stored in `featureBits[idx/8] & (1 << idx%8)`; the payload region is a
list of optional values indexed by feature position (replacing the raw
byte offsets, whose bookkeeping is verified separately on
`TypeInfo::AddFeature`). -/

/-- Modelled from the spec: `TypeInfo::GetFeatureBytes`, "a presence
bitset sized `ceil(featureCount/8)` bytes". -/
def featureBytes (featureCount : Nat) : Nat :=
  (featureCount + 7) / 8

/-- Bit test `featureBits[idx/8] & (1 << idx%8)` from
`FeatureValueBuffer::HasValue`. -/
def testBitBytes (bytes : List Nat) (idx : Nat) : Bool :=
  (bytes.getD (idx / 8) 0).testBit (idx % 8)

structure FeatureValueBuffer where
  ftype : List FeatureKind
  featureBits : List Nat
  values : List (Option FValue)
  deriving DecidableEq, Repr

/-- Well-formedness of a populated buffer, as maintained by
`AllocateValue`/`FreeValue`: a presence bit is set for a
payload-carrying feature exactly when a constructed value of that
feature's kind is stored at its index. -/
def valuesMatch (bytes : List Nat) : Nat → List FeatureKind → List (Option FValue) → Bool
  | _, [], [] => true
  | _, [], _ :: _ => false
  | _, _ :: _, [] => false
  | idx, k :: ks, ov :: ovs =>
      (match ov with
       | some v => testBitBytes bytes idx && k.hasValue && (v.kind = k)
       | none => !(testBitBytes bytes idx && k.hasValue))
      && valuesMatch bytes (idx + 1) ks ovs

def FeatureValueBuffer.wellFormed (b : FeatureValueBuffer) : Bool :=
  b.featureBits.length = featureBytes b.ftype.length
  && valuesMatch b.featureBits 0 b.ftype b.values

/-- The payload part of `FeatureValueBuffer::Write`: for each feature
index in schema order whose bit is set and whose feature carries a
payload, the feature's `Write` tokens. -/
def writeValuesTokens (bytes : List Nat) : Nat → List FeatureKind → List (Option FValue) → List Token
  | _, [], _ => []
  | idx, k :: ks, ovs =>
      (if testBitBytes bytes idx && k.hasValue then
        (match ovs.headD none with
         | some v => v.writeTokens
         | none => [])
      else [])
      ++ writeValuesTokens bytes (idx + 1) ks (ovs.tail)

/-- `FeatureValueBuffer::Write`: the presence bitset bytes first, then
the payloads in schema order. -/
def FeatureValueBuffer.writeTokens (b : FeatureValueBuffer) : List Token :=
  b.featureBits.map Token.u8 ++ writeValuesTokens b.featureBits 0 b.ftype b.values

/-- The bitset part of `FeatureValueBuffer::Read`: read
`GetFeatureBytes()` bytes. -/
def readBytes : Nat → Scanner → Option (List Nat) × Scanner
  | 0, s => (some [], s)
  | n + 1, s =>
      match s.readU8 with
      | (some b, s') =>
          match readBytes n s' with
          | (some bs, s'') => (some (b :: bs), s'')
          | (none, s'') => (none, s'')
      | (none, s') => (none, s')

/-- The payload part of `FeatureValueBuffer::Read`: for each feature
index whose (just read) bit is set and whose feature carries a payload,
allocate and read a value; other slots stay empty. -/
def readValuesLoop (bytes : List Nat) : Nat → List FeatureKind → Scanner → Option (List (Option FValue)) × Scanner
  | _, [], s => (some [], s)
  | idx, k :: ks, s =>
      if testBitBytes bytes idx && k.hasValue then
        match k.readValue s with
        | (some v, s') =>
            match readValuesLoop bytes (idx + 1) ks s' with
            | (some vs, s'') => (some (some v :: vs), s'')
            | (none, s'') => (none, s'')
        | (none, s') => (none, s')
      else
        match readValuesLoop bytes (idx + 1) ks s with
        | (some vs, s') => (some (none :: vs), s')
        | (none, s') => (none, s')

/-- `FeatureValueBuffer::Read` into a fresh buffer bound to the feature
list `ftype`: bitset bytes first, then the payloads expected by the
bitset, failing (`false` in the source) on any short read. -/
def bufferRead (ftype : List FeatureKind) (s : Scanner) : Option FeatureValueBuffer × Scanner :=
  match readBytes (featureBytes ftype.length) s with
  | (some bytes, s') =>
      match readValuesLoop bytes 0 ftype s' with
      | (some vs, s'') => (some ⟨ftype, bytes, vs⟩, s'')
      | (none, s'') => (none, s'')
  | (none, s') => (none, s')

/-! ## `TypeInfo` and feature-offset layout

For `TypeInfo::AddFeature` only `GetName()` and `GetValueSize()` of the
added feature are consulted; a feature is therefore a name together
with its payload size (`sizeof` of the value struct, 0 for the marker
features). -/

structure FeatureDesc where
  fname : String
  valueSize : Nat
  deriving DecidableEq, Repr

/-- `std::max(sizeof(size_t), sizeof(void*))` from
`TypeInfo::AddFeature`, instantiated for the modelled 64-bit
platform. -/
def alignment : Nat := 8

/-- The offset rounding of `TypeInfo::AddFeature`:
`if (offset%alignment!=0) offset=(offset/alignment+1)*alignment`. -/
def roundUp (n : Nat) : Nat :=
  if n % alignment ≠ 0 then (n / alignment + 1) * alignment else n

/-- Entity-kind bits of `TypeInfo` condition masks (`typeNode` etc.).
Modelled from the spec: `AddCondition(entityKindMask, conditionTree)`
scopes a rule to one or more of node/way/area/relation; the four kinds
are independent bits of an `unsigned char`. -/
def typeNodeBit : Nat := 1

def typeWayBit : Nat := 2

def typeAreaBit : Nat := 4

def typeRelationBit : Nat := 8

def hasBit (mask bit : Nat) : Bool := mask &&& bit ≠ 0

structure TypeCondition where
  types : Nat
  condition : TagCondition

structure TypeInfo where
  id : Nat := 0
  name : String := ""
  canBeNode : Bool := false
  canBeWay : Bool := false
  canBeArea : Bool := false
  canBeRelation : Bool := false
  canRouteFoot : Bool := false
  canRouteBicycle : Bool := false
  canRouteCar : Bool := false
  indexAsLocation : Bool := false
  indexAsRegion : Bool := false
  indexAsPOI : Bool := false
  optimizeLowZoom : Bool := false
  multipolygon : Bool := false
  pinWay : Bool := false
  ignoreSeaLand : Bool := false
  ignore : Bool := false
  conditions : List TypeCondition := []
  features : List (FeatureDesc × Nat) := []
  featureSet : List String := []

/-- `TypeInfo::HasFeature`. -/
def TypeInfo.hasFeature (t : TypeInfo) (featureName : String) : Bool :=
  t.featureSet.contains featureName

/-- Modelled from the spec: `TypeInfo::HasConditions` (the type has a
non-empty classification condition list). -/
def TypeInfo.hasConditions (t : TypeInfo) : Bool :=
  !t.conditions.isEmpty

/-- The offset computed by `TypeInfo::AddFeature` for the next
feature: 0 for the first, else the previous feature's offset plus its
value size, rounded up to the alignment. -/
def TypeInfo.nextOffset (t : TypeInfo) : Nat :=
  match t.features.getLast? with
  | none => 0
  | some last => roundUp (last.2 + last.1.valueSize)

/-- `TypeInfo::AddFeature`; the `assert` on a duplicate feature name is
the failure case. -/
def TypeInfo.addFeature (t : TypeInfo) (f : FeatureDesc) : Option TypeInfo :=
  if t.featureSet.contains f.fname then none
  else
    some { t with
            features := t.features ++ [(f, t.nextOffset)],
            featureSet := t.featureSet ++ [f.fname] }

def TypeInfo.addFeatures (t : TypeInfo) : List FeatureDesc → Option TypeInfo
  | [] => some t
  | f :: fs => (t.addFeature f).bind (fun t' => t'.addFeatures fs)

def TypeInfo.offsets (t : TypeInfo) : List Nat :=
  t.features.map Prod.snd

/-- `TypeInfo::AddCondition`: records the scoped condition and flips
the corresponding can-be flags. -/
def TypeInfo.addCondition (t : TypeInfo) (types : Nat) (c : TagCondition) : TypeInfo :=
  { t with
      canBeNode := t.canBeNode || hasBit types typeNodeBit,
      canBeWay := t.canBeWay || hasBit types typeWayBit,
      canBeArea := t.canBeArea || hasBit types typeAreaBit,
      canBeRelation := t.canBeRelation || hasBit types typeRelationBit,
      conditions := t.conditions ++ [⟨types, c⟩] }

/-! ## Tag registry and `TypeConfig` aggregate -/

structure TagInfo where
  id : Nat
  name : String
  internalOnly : Bool
  deriving DecidableEq, Repr

/-- `TagInfo::SetToExternal`. -/
def TagInfo.setToExternal (t : TagInfo) : TagInfo :=
  { t with internalOnly := false }

/-- Modelled from the spec: the global sentinel `tagIgnore` (id 0
permanently reserved for "ignore/unknown tag"). -/
def tagIgnoreId : Nat := 0

/-- Modelled from the spec: the global sentinel `typeIgnore` (id 0
reserved for the universal "ignore" type). -/
def typeIgnoreId : Nat := 0

structure TypeConfig where
  nextTagId : Nat := 0
  tags : List TagInfo := []
  stringToTagMap : List (String × Nat) := []
  nameTagIdToPrioMap : List (Nat × Nat) := []
  nameAltTagIdToPrioMap : List (Nat × Nat) := []
  nameToFeatureMap : List (String × FeatureDesc) := []
  nextTypeId : Nat := 0
  types : List TypeInfo := []
  nameToTypeMap : List (String × TypeInfo) := []
  idToTypeMap : List (Nat × TypeInfo) := []
  typeInfoIgnore : TypeInfo := {}

/-- `TypeConfig::RegisterTagForInternalUse`: return the existing id for
a known name, else intern the name with the next sequential id.  (A
freshly constructed `TagInfo` always has id 0, so the source's
`GetId()==0` test always takes the `SetId(nextTagId); nextTagId++`
branch.) -/
def TypeConfig.registerTagForInternalUse (cfg : TypeConfig) (tagName : String) : Nat × TypeConfig :=
  match assocFind tagName cfg.stringToTagMap with
  | some id => (id, cfg)
  | none =>
      let tagInfo : TagInfo := ⟨cfg.nextTagId, tagName, true⟩
      (tagInfo.id,
        { cfg with
            nextTagId := cfg.nextTagId + 1,
            tags := cfg.tags ++ [tagInfo],
            stringToTagMap := assocInsertReplace tagInfo.name tagInfo.id cfg.stringToTagMap })

/-- `TypeConfig::RegisterTagForExternalUse`: for a known name, flip
`tags[id]` to external in place and return the id; else intern the name
as external with the next sequential id. -/
def TypeConfig.registerTagForExternalUse (cfg : TypeConfig) (tagName : String) : Nat × TypeConfig :=
  match assocFind tagName cfg.stringToTagMap with
  | some id =>
      (id, { cfg with tags := modifyIdx cfg.tags id TagInfo.setToExternal })
  | none =>
      let tagInfo : TagInfo := ⟨cfg.nextTagId, tagName, false⟩
      (tagInfo.id,
        { cfg with
            nextTagId := cfg.nextTagId + 1,
            tags := cfg.tags ++ [tagInfo],
            stringToTagMap := assocInsertReplace tagInfo.name tagInfo.id cfg.stringToTagMap })

/-- `TypeConfig::RegisterNameTag` (`insert` on the hash map keeps an
existing entry). -/
def TypeConfig.registerNameTag (cfg : TypeConfig) (tagName : String) (priority : Nat) : Nat × TypeConfig :=
  let (tagId, cfg) := cfg.registerTagForExternalUse tagName
  (tagId, { cfg with nameTagIdToPrioMap := assocInsertKeepOld tagId priority cfg.nameTagIdToPrioMap })

/-- `TypeConfig::RegisterNameAltTag`. -/
def TypeConfig.registerNameAltTag (cfg : TypeConfig) (tagName : String) (priority : Nat) : Nat × TypeConfig :=
  let (tagId, cfg) := cfg.registerTagForExternalUse tagName
  (tagId, { cfg with nameAltTagIdToPrioMap := assocInsertKeepOld tagId priority cfg.nameAltTagIdToPrioMap })

/-- `TypeConfig::AddTypeInfo`: a type whose name is already registered
is silently skipped; otherwise a node- or area-capable type without the
address feature gains it, the type gets the next sequential id (or
bumps the counter past an explicitly set id) and is pushed and
indexed.  The failure case (`none`) is the `assert` that the address
feature resolves and is not a duplicate. -/
def TypeConfig.addTypeInfo (cfg : TypeConfig) (typeInfo : TypeInfo) : Option TypeConfig :=
  if (assocFind typeInfo.name cfg.nameToTypeMap).isSome then
    some cfg
  else do
    let typeInfo ←
      if (typeInfo.canBeArea || typeInfo.canBeNode)
          && !(typeInfo.hasFeature "Address") then
        match assocFind "Address" cfg.nameToFeatureMap with
        | none => none
        | some f => typeInfo.addFeature f
      else
        some typeInfo
    let (typeInfo, nextTypeId) :=
      if typeInfo.id = 0 then
        ({ typeInfo with id := cfg.nextTypeId }, cfg.nextTypeId + 1)
      else
        (typeInfo, max cfg.nextTypeId (typeInfo.id + 1))
    some { cfg with
            nextTypeId := nextTypeId,
            types := cfg.types ++ [typeInfo],
            nameToTypeMap := assocInsertReplace typeInfo.name typeInfo cfg.nameToTypeMap,
            idToTypeMap := assocInsertReplace typeInfo.id typeInfo cfg.idToTypeMap }

/-! ## Classification (`GetNodeType`, `GetWayAreaTypeId`) -/

/-- One condition record matches for a node: the condition is
node-scoped and evaluates true. -/
def nodeCondMatches (m : TagMap) (cond : TypeCondition) : Bool :=
  hasBit cond.types typeNodeBit && cond.condition.evaluate m

/-- The type scan of `TypeConfig::GetNodeType`: skip types without
conditions or that cannot be nodes; return the first type one of whose
node-scoped conditions evaluates true. -/
def findNodeType (m : TagMap) : List TypeInfo → Option TypeInfo
  | [] => none
  | t :: ts =>
      if !t.hasConditions || !t.canBeNode then findNodeType m ts
      else if t.conditions.any (nodeCondMatches m) then some t
      else findNodeType m ts

/-- `TypeConfig::GetNodeType`. -/
def TypeConfig.getNodeType (cfg : TypeConfig) (m : TagMap) : TypeInfo :=
  if m.isEmpty then cfg.typeInfoIgnore
  else
    match findNodeType m cfg.types with
    | some t => t
    | none => cfg.typeInfoIgnore

/-- The node classifier as the specification words it: iterate declared
types in registration order, skipping types that cannot be nodes or
have no conditions; return the first type with a node-scoped condition
evaluating true; empty tag map or no match gives the reserved ignore
type. -/
def specClassifyNode (cfg : TypeConfig) (m : TagMap) : TypeInfo :=
  if m.isEmpty then cfg.typeInfoIgnore
  else
    (cfg.types.find? (fun t =>
        t.canBeNode && t.hasConditions && t.conditions.any (nodeCondMatches m))).getD
      cfg.typeInfoIgnore

/-- The inner condition loop of `TypeConfig::GetWayAreaTypeId`: each
matching condition fixes the still-ignore way/area slot it is scoped
to; the source returns as soon as `wayType!=typeIgnore ||
areaType!=typeIgnore`. -/
def wayAreaCondLoop (typeId : Nat) (m : TagMap) : List TypeCondition → Nat × Nat → (Nat × Nat) × Bool
  | [], wa => (wa, false)
  | c :: cs, (way, area) =>
      if !(hasBit c.types typeWayBit || hasBit c.types typeAreaBit) then
        wayAreaCondLoop typeId m cs (way, area)
      else if c.condition.evaluate m then
        let way' := if way == typeIgnoreId && hasBit c.types typeWayBit then typeId else way
        let area' := if area == typeIgnoreId && hasBit c.types typeAreaBit then typeId else area
        if way' ≠ typeIgnoreId ∨ area' ≠ typeIgnoreId then ((way', area'), true)
        else wayAreaCondLoop typeId m cs (way', area')
      else wayAreaCondLoop typeId m cs (way, area)

/-- The outer type loop of `TypeConfig::GetWayAreaTypeId`. -/
def wayAreaTypeLoop (m : TagMap) : List TypeInfo → Nat × Nat → (Nat × Nat) × Bool
  | [], wa => (wa, false)
  | t :: ts, wa =>
      if !((t.canBeWay || t.canBeArea) && t.hasConditions) then
        wayAreaTypeLoop m ts wa
      else
        match wayAreaCondLoop t.id m t.conditions wa with
        | (wa', true) => (wa', true)
        | (wa', false) => wayAreaTypeLoop m ts wa'

/-- `TypeConfig::GetWayAreaTypeId`, returning
`(found, wayType, areaType)`. -/
def TypeConfig.getWayAreaTypeId (cfg : TypeConfig) (m : TagMap) : Bool × Nat × Nat :=
  if m.isEmpty then (false, typeIgnoreId, typeIgnoreId)
  else
    let (wa, found) := wayAreaTypeLoop m cfg.types (typeIgnoreId, typeIgnoreId)
    (found, wa.1, wa.2)

/-! ## Schema persistence (`TypeConfig::LoadFromDataFile`)

The load is embedded section by section over the token scanner.  The
boolean is the function result; the returned config carries whatever
mutations happened before a failure (the source mutates `*this`).
Variables that the source leaves unassigned on a failed read are
modelled with their default-initialized (or, for the indeterminate
`requestedId`, zero) values. -/

def loadTagLoop : Nat → TypeConfig → Scanner → Bool × TypeConfig × Scanner
  | 0, cfg, s => (true, cfg, s)
  | n + 1, cfg, s =>
      let (ridOpt, s) := s.readNumber
      let (nameOpt, s) := s.readStr
      let (ioOpt, s) := s.readBool
      -- The source tests `!(ReadNumber(requestedId) && Read(name), Read(internalOnly))`:
      -- under the comma operator only the last read's success is observable.
      match ioOpt with
      | none => (false, cfg, s)
      | some internalOnly =>
          let requestedId := ridOpt.getD 0
          let name := nameOpt.getD ""
          let (actualId, cfg) :=
            if internalOnly then cfg.registerTagForInternalUse name
            else cfg.registerTagForExternalUse name
          if actualId ≠ requestedId then (false, cfg, s)
          else loadTagLoop n cfg s

def loadNameTagLoop : Nat → TypeConfig → Scanner → Bool × TypeConfig × Scanner
  | 0, cfg, s => (true, cfg, s)
  | n + 1, cfg, s =>
      let (ridOpt, s) := s.readNumber
      let (nameOpt, s) := s.readStr
      let (prioOpt, s) := s.readNumber
      -- On a failed read the source only prints "Format error in file"
      -- and falls through: the registration below still executes.
      let requestedId := ridOpt.getD 0
      let name := nameOpt.getD ""
      let priority := prioOpt.getD 0
      let (actualId, cfg) := cfg.registerNameTag name priority
      if actualId ≠ requestedId then (false, cfg, s)
      else loadNameTagLoop n cfg s

def loadNameAltTagLoop : Nat → TypeConfig → Scanner → Bool × TypeConfig × Scanner
  | 0, cfg, s => (true, cfg, s)
  | n + 1, cfg, s =>
      let (ridOpt, s) := s.readNumber
      let (nameOpt, s) := s.readStr
      let (prioOpt, s) := s.readNumber
      -- Same fall-through as the name-tag loop: the failed read is only logged.
      let requestedId := ridOpt.getD 0
      let name := nameOpt.getD ""
      let priority := prioOpt.getD 0
      let (actualId, cfg) := cfg.registerNameAltTag name priority
      if actualId ≠ requestedId then (false, cfg, s)
      else loadNameAltTagLoop n cfg s

def loadTypeFeatureLoop : Nat → TypeConfig → TypeInfo → Scanner → Option TypeInfo × Scanner
  | 0, _, t, s => (some t, s)
  | n + 1, cfg, t, s =>
      let (nameOpt, s) := s.readStr
      match nameOpt with
      | none => (none, s)
      | some featureName =>
          match assocFind featureName cfg.nameToFeatureMap with
          | none => (none, s)
          | some f =>
              match t.addFeature f with
              | none => (none, s)
              | some t' => loadTypeFeatureLoop n cfg t' s

def loadTypeLoop : Nat → TypeConfig → Scanner → Bool × TypeConfig × Scanner
  | 0, cfg, s => (true, cfg, s)
  | n + 1, cfg, s =>
      let (idOpt, s) := s.readNumber
      let (nameOpt, s) := s.readStr
      let (canBeNodeOpt, s) := s.readBool
      let (canBeWayOpt, s) := s.readBool
      let (canBeAreaOpt, s) := s.readBool
      let (canBeRelationOpt, s) := s.readBool
      let (canRouteFootOpt, s) := s.readBool
      let (canRouteBicycleOpt, s) := s.readBool
      let (canRouteCarOpt, s) := s.readBool
      let (indexAsLocationOpt, s) := s.readBool
      let (indexAsRegionOpt, s) := s.readBool
      let (indexAsPOIOpt, s) := s.readBool
      let (optimizeLowZoomOpt, s) := s.readBool
      let (multipolygonOpt, s) := s.readBool
      let (pinWayOpt, s) := s.readBool
      let (ignoreSeaLandOpt, s) := s.readBool
      let (ignoreOpt, s) := s.readBool
      match ignoreOpt with
      | none => (false, cfg, s)
      | some ignoreRead =>
          if idOpt.isNone || nameOpt.isNone || canBeNodeOpt.isNone || canBeWayOpt.isNone
              || canBeAreaOpt.isNone || canBeRelationOpt.isNone || canRouteFootOpt.isNone
              || canRouteBicycleOpt.isNone || canRouteCarOpt.isNone
              || indexAsLocationOpt.isNone || indexAsRegionOpt.isNone
              || indexAsPOIOpt.isNone || optimizeLowZoomOpt.isNone
              || multipolygonOpt.isNone || pinWayOpt.isNone || ignoreSeaLandOpt.isNone then
            (false, cfg, s)
          else
            -- The source calls `SetIgnore` five times in a row (with the
            -- optimizeLowZoom/multipolygon/pinWay/ignoreSeaLand/ignore
            -- booleans): only the last assignment survives and the four
            -- dedicated flags keep their default-constructed false.
            let typeInfo : TypeInfo :=
              { id := idOpt.getD 0,
                name := nameOpt.getD "",
                canBeNode := canBeNodeOpt.getD false,
                canBeWay := canBeWayOpt.getD false,
                canBeArea := canBeAreaOpt.getD false,
                canBeRelation := canBeRelationOpt.getD false,
                canRouteFoot := canRouteFootOpt.getD false,
                canRouteBicycle := canRouteBicycleOpt.getD false,
                canRouteCar := canRouteCarOpt.getD false,
                indexAsLocation := indexAsLocationOpt.getD false,
                indexAsRegion := indexAsRegionOpt.getD false,
                indexAsPOI := indexAsPOIOpt.getD false,
                ignore := ignoreRead }
            let (fcOpt, s) := s.readNumber
            match fcOpt with
            | none => (false, cfg, s)
            | some featureCount =>
                match loadTypeFeatureLoop featureCount cfg typeInfo s with
                | (none, s) => (false, cfg, s)
                | (some typeInfo, s) =>
                    match cfg.addTypeInfo typeInfo with
                    | none => (false, cfg, s)
                    | some cfg => loadTypeLoop n cfg s

/-- `TypeConfig::LoadFromDataFile` after the file open: the four
sections in order, ending with `!scanner.HasError() &&
scanner.Close()`. -/
def TypeConfig.loadFromDataFile (cfg : TypeConfig) (s : Scanner) : Bool × TypeConfig :=
  let (tagCountOpt, s) := s.readNumber
  match tagCountOpt with
  | none => (false, cfg)
  | some tagCount =>
      match loadTagLoop tagCount cfg s with
      | (false, cfg, _) => (false, cfg)
      | (true, cfg, s) =>
          let (nameTagCountOpt, s) := s.readNumber
          match nameTagCountOpt with
          | none => (false, cfg)
          | some nameTagCount =>
              match loadNameTagLoop nameTagCount cfg s with
              | (false, cfg, _) => (false, cfg)
              | (true, cfg, s) =>
                  let (nameAltTagCountOpt, s) := s.readNumber
                  match nameAltTagCountOpt with
                  | none => (false, cfg)
                  | some nameAltTagCount =>
                      match loadNameAltTagLoop nameAltTagCount cfg s with
                      | (false, cfg, _) => (false, cfg)
                      | (true, cfg, s) =>
                          let (typeCountOpt, s) := s.readNumber
                          match typeCountOpt with
                          | none => (false, cfg)
                          | some typeCount =>
                              match loadTypeLoop typeCount cfg s with
                              | (false, cfg, _) => (false, cfg)
                              | (true, cfg, s) => (!s.hasError, cfg)

/-! ## `WidthFeature::Parse`

Embedded at the level of the width tag's raw string value.  The
outcome distinguishes "tag absent, nothing happens", "warning issued
and no value stored" and "value allocated and stored". -/

inductive ParseOutcome where
  | absent
  | warning
  | value (n : Nat)
  deriving DecidableEq, Repr

/-- The single-comma fixup loop of `WidthFeature::Parse`: the loop
counts commas (stopping after the second) and, exactly when the count
is one, replaces that comma by a point. -/
def fixComma (cs : List Char) : List Char :=
  if cs.count ',' = 1 then
    cs.map (fun c => if c = ',' then Char.ofNat 46 else c)
  else cs

/-- The unit-suffix stripping of `WidthFeature::Parse`: for strings of
length at least two, a trailing `m` preceded by a digit or a character
at most `' '` is erased, then trailing spaces are trimmed (both steps
sit inside the same length guard in the source). -/
def stripWidthSuffix (cs : List Char) : List Char :=
  if cs.length ≥ 2 then
    let cs' :=
      match cs.getLast?, cs.get? (cs.length - 2) with
      | some last, some prev =>
          if last = 'm' && (('0' ≤ prev && prev ≤ '9') || prev ≤ ' ') then
            cs.dropLast
          else cs
      | _, _ => cs
    (cs'.reverse.dropWhile (fun c => c = ' ')).reverse
  else cs

/-- `WidthFeature::Parse` on a present width tag value: comma fixup,
unit-suffix stripping, numeric parse (warning on failure), the (vacuous)
range test `w<0 && w>255.5` of the source, and storage of
`(uint8_t)floor(w+0.5)` (the conversion is modelled modulo 256; outside
`[0,255]` it is undefined behaviour in the C++). -/
def widthParseString (raw : String) : ParseOutcome :=
  let cs := fixComma raw.data
  let cs := stripWidthSuffix cs
  match stringToNumberDec (String.mk cs) with
  | none => .warning
  | some w =>
      if w.isNeg && w.gtHalf511 then .warning
      else .value ((w.floorPlusHalf % 256).toNat)

/-- Representative distinct tag ids as cached by the features at
`Initialize` time (the concrete numbers are irrelevant; only their
distinctness matters). -/
def tagWidthId : Nat := 6

def tagOnewayId : Nat := 7

def tagJunctionId : Nat := 10

def tagAccessId : Nat := 15

def tagAccessForwardId : Nat := 16

def tagAccessBackwardId : Nat := 17

def tagAccessFootId : Nat := 18

def tagAccessFootForwardId : Nat := 19

def tagAccessFootBackwardId : Nat := 20

def tagAccessBicycleId : Nat := 21

def tagAccessBicycleForwardId : Nat := 22

def tagAccessBicycleBackwardId : Nat := 23

def tagAccessMotorVehicleId : Nat := 24

def tagAccessMotorVehicleForwardId : Nat := 25

def tagAccessMotorVehicleBackwardId : Nat := 26

def tagAccessMotorcarId : Nat := 27

def tagAccessMotorcarForwardId : Nat := 28

def tagAccessMotorcarBackwardId : Nat := 29

/-- `WidthFeature::Parse` over the tag map. -/
def widthParse (tags : TagMap) : ParseOutcome :=
  match assocFind tagWidthId tags with
  | none => .absent
  | some raw => widthParseString raw

/-! ## `AccessFeature::Parse`

The access permission bits.  Modelled from the spec: the
`AccessFeatureValue` bit enum lives in the missing header; six
mode-direction permission bits plus the two oneway marker bits, as
distinct bits of one byte. -/

def footForward : Nat := 1

def footBackward : Nat := 2

def bicycleForward : Nat := 4

def bicycleBackward : Nat := 8

def carForward : Nat := 16

def carBackward : Nat := 32

def onewayForward : Nat := 64

def onewayBackward : Nat := 128

/-- All six mode-direction permission bits. -/
def allModeBits : Nat :=
  footForward ||| footBackward ||| bicycleForward ||| bicycleBackward
    ||| carForward ||| carBackward

/-- `access &= ~mask` within one byte. -/
def clearBits (access mask : Nat) : Nat :=
  access &&& (255 ^^^ mask)

/-- C++ `!` applied to an integer: 1 for zero, 0 otherwise. -/
def lnot (n : Nat) : Nat := if n = 0 then 1 else 0

/-- The default mask derived from the type's routing flags
(`CanRouteFoot`/`CanRouteBicycle`/`CanRouteCar`). -/
def defaultAccessMask (canFoot canBike canCar : Bool) : Nat :=
  (if canFoot then footForward ||| footBackward else 0)
    ||| (if canBike then bicycleForward ||| bicycleBackward else 0)
    ||| (if canCar then carForward ||| carBackward else 0)

/-- Modelled from the spec: `AccessFeature::ParseAccessFlag`
(per-mode-per-direction override: clear the bit, set it again unless
the tag value is "no"). -/
def parseAccessFlag (v : String) (access flag : Nat) : Nat :=
  let a := clearBits access flag
  if v = "no" then a else a ||| flag

/-- The mask computation of `AccessFeature::Parse` (everything before
the final comparison against the default mask), ported statement by
statement, including the `(!access) & onewayBackward` precedence slip
of the per-mode blanket branches. -/
def accessComputed (canFoot canBike canCar : Bool) (tags : TagMap) : Nat :=
  let access := defaultAccessMask canFoot canBike canCar
  -- blanket access
  let access :=
    match assocFind tagAccessId tags with
    | none => access
    | some v => if v = "no" then 0 else allModeBits
  -- access:forward, else access:backward
  let access :=
    match assocFind tagAccessForwardId tags with
    | some v =>
        let a := clearBits access (footForward ||| bicycleForward ||| carForward)
        if v = "no" then a else a ||| (footForward ||| bicycleForward ||| carForward)
    | none =>
        match assocFind tagAccessBackwardId tags with
        | some v =>
            let a := clearBits access (footBackward ||| bicycleBackward ||| carBackward)
            if v = "no" then a else a ||| (footBackward ||| bicycleBackward ||| carBackward)
        | none => access
  -- per-mode blanket chain: access:foot, else access:bicycle,
  -- else access:motor_vehicle, else access:motorcar
  let access :=
    match assocFind tagAccessFootId tags with
    | some v =>
        let a := clearBits access (footForward ||| footBackward)
        if v = "no" then a else a ||| (footForward ||| footBackward)
    | none =>
        match assocFind tagAccessBicycleId tags with
        | some v =>
            let a := clearBits access (bicycleForward ||| bicycleBackward)
            if v = "no" then a
            else
              let a := if hasBit (lnot a) onewayBackward then a ||| bicycleForward else a
              let a := if hasBit (lnot a) onewayForward then a ||| bicycleBackward else a
              a
        | none =>
            match assocFind tagAccessMotorVehicleId tags with
            | some v =>
                let a := clearBits access (carForward ||| carBackward)
                if v = "no" then a
                else
                  let a := if hasBit (lnot a) onewayBackward then a ||| carForward else a
                  let a := if hasBit (lnot a) onewayForward then a ||| carBackward else a
                  a
            | none =>
                match assocFind tagAccessMotorcarId tags with
                | some v =>
                    let a := clearBits access (carForward ||| carBackward)
                    if v = "no" then a
                    else
                      let a := if hasBit (lnot a) onewayBackward then a ||| carForward else a
                      let a := if hasBit (lnot a) onewayForward then a ||| carBackward else a
                      a
                | none => access
  -- per-mode-per-direction overrides, applied independently
  let access :=
    match assocFind tagAccessFootForwardId tags with
    | some v => parseAccessFlag v access footForward
    | none => access
  let access :=
    match assocFind tagAccessFootBackwardId tags with
    | some v => parseAccessFlag v access footBackward
    | none => access
  let access :=
    match assocFind tagAccessBicycleForwardId tags with
    | some v => parseAccessFlag v access bicycleForward
    | none => access
  let access :=
    match assocFind tagAccessBicycleBackwardId tags with
    | some v => parseAccessFlag v access bicycleBackward
    | none => access
  let access :=
    match assocFind tagAccessMotorVehicleForwardId tags with
    | some v => parseAccessFlag v access carForward
    | none => access
  let access :=
    match assocFind tagAccessMotorVehicleBackwardId tags with
    | some v => parseAccessFlag v access carBackward
    | none => access
  let access :=
    match assocFind tagAccessMotorcarForwardId tags with
    | some v => parseAccessFlag v access carForward
    | none => access
  let access :=
    match assocFind tagAccessMotorcarBackwardId tags with
    | some v => parseAccessFlag v access carBackward
    | none => access
  -- oneway, else junction=roundabout
  let access :=
    match assocFind tagOnewayId tags with
    | some v =>
        if v = "-1" then
          (clearBits access (bicycleForward ||| carForward ||| onewayForward)) ||| onewayBackward
        else if v = "no" || v = "false" || v = "0" then access
        else
          (clearBits access (bicycleBackward ||| carBackward ||| onewayBackward)) ||| onewayForward
    | none =>
        match assocFind tagJunctionId tags with
        | some v =>
            if v = "roundabout" then
              (clearBits access (bicycleBackward ||| carBackward ||| onewayBackward))
                ||| (bicycleForward ||| carForward ||| onewayForward)
            else access
        | none => access
  access

/-- `AccessFeature::Parse`: a value is allocated and stored exactly
when the computed mask differs from the type-default mask. -/
def accessParse (canFoot canBike canCar : Bool) (tags : TagMap) : Option Nat :=
  let access := accessComputed canFoot canBike canCar tags
  if access ≠ defaultAccessMask canFoot canBike canCar then some access else none

/-! ## Specification-side layout description for `AddFeature`

The offset recurrence as the specification words it, for comparison
with the code's `TypeInfo.addFeature`. -/

/-- Offsets the spec's recurrence assigns to a feature list starting
from offset `cur`: each feature sits at the running offset, and the
next running offset is the current one plus this feature's payload
size, rounded up to the alignment. -/
def specOffsetsFrom (cur : Nat) : List FeatureDesc → List Nat
  | [] => []
  | f :: fs => cur :: specOffsetsFrom (roundUp (cur + f.valueSize)) fs

/-- Relation between consecutive feature instances of one type: the
later offset is the earlier one plus that feature's payload size
rounded up, never smaller, and strictly larger when the earlier
feature carries a payload. -/
def stepOk (p q : FeatureDesc × Nat) : Prop :=
  q.2 = roundUp (p.2 + p.1.valueSize) ∧ p.2 ≤ q.2 ∧ (0 < p.1.valueSize → p.2 < q.2)

/-- Layout invariant of a type's feature list: the first feature sits
at offset 0, every offset is aligned, and consecutive instances are
related by `stepOk`. -/
def layoutOk (t : TypeInfo) : Prop :=
  (∀ p, t.features.head? = some p → p.2 = 0)
  ∧ (∀ p ∈ t.features, p.2 % alignment = 0)
  ∧ List.Chain' stepOk t.features

/-- Registry invariant established by the `TypeConfig` constructor and
preserved by registration: the id counter equals the tag count, and
every name-map entry points at the tag of that id and name (tags are
pushed in id order, so the vector is indexed by id). -/
def TypeConfig.tagsWellFormed (cfg : TypeConfig) : Prop :=
  cfg.nextTagId = cfg.tags.length
  ∧ ∀ p ∈ cfg.stringToTagMap, ∃ flag, cfg.tags.get? p.2 = some ⟨p.2, p.1, flag⟩

/-! ## Concrete instances used by the closed theorems -/

/-- A way-capable type whose single condition is way-scoped and tests
the presence of tag 1. -/
def typeA : TypeInfo :=
  { id := 1, name := "A", canBeWay := true,
    conditions := [⟨typeWayBit, TagCondition.tagExists 1⟩] }

/-- A later-registered area-capable type whose single condition is
area-scoped and tests the presence of the same tag 1. -/
def typeB : TypeInfo :=
  { id := 2, name := "B", canBeArea := true,
    conditions := [⟨typeAreaBit, TagCondition.tagExists 1⟩] }

/-- A config holding the ignore type, then `typeA`, then `typeB`. -/
def cfgWayArea : TypeConfig :=
  { types := [{ id := 0 }, typeA, typeB] }

/-- A tag map containing tag 1, satisfying both `typeA`'s way-scoped
and `typeB`'s area-scoped condition. -/
def mapWayArea : TagMap := [(1, "x")]

/-- The tag-registry state right after the constructor has interned
the reserved empty tag at id 0 (the state every load starts from). -/
def cfgFresh : TypeConfig :=
  { nextTagId := 1, tags := [⟨0, "", true⟩], stringToTagMap := [("", 0)] }

/-- A `types.dat` token stream with zero tags and a declared name-tag
count of one, ending before the name-tag entry: the entry's reads all
fail. -/
def streamShortNameTag : Scanner := ⟨[Token.num 0, Token.num 1], false⟩

/-- A populated, well-formed buffer for the round-trip witness: a
name value, a present marker and an access value. -/
def bufEx : FeatureValueBuffer :=
  ⟨[FeatureKind.nameF, FeatureKind.bridgeF, FeatureKind.accessF], [7],
   [some (FValue.nameV "A"), none, some (FValue.accessV 5)]⟩

def bridgeDesc : FeatureDesc := ⟨"Bridge", 0⟩

def tunnelDesc : FeatureDesc := ⟨"Tunnel", 0⟩

/-- A type that already carries a feature named "Bridge". -/
def typeWithBridge : TypeInfo :=
  { name := "T", features := [(bridgeDesc, 0)], featureSet := ["Bridge"] }

/-- A config with one registered type named "existing". -/
def cfgWithType : TypeConfig :=
  { nextTypeId := 1, types := [{ id := 0, name := "existing" }],
    nameToTypeMap := [("existing", { id := 0, name := "existing" })],
    idToTypeMap := [(0, { id := 0, name := "existing" })] }

/-! # Theorems -/

/-- C1: `GetWayAreaTypeId` does not keep scanning until both results
are fixed: on a tag map that satisfies the way-scoped condition of
`typeA` and the area-scoped condition of the later-registered `typeB`,
the source returns as soon as the way slot is fixed
(`wayType!=typeIgnore || areaType!=typeIgnore`), so the area result
stays the ignore id instead of becoming `typeB`'s id — refuting the
claimed "scanning stops only once both are fixed, so … yields both a
non-ignore way type and a non-ignore area type". -/
theorem claim_C1_way_area_scan_returns_after_first_match :
    (typeA.conditions.any (fun c => hasBit c.types typeWayBit && c.condition.evaluate mapWayArea))
      = true
    ∧ (typeB.conditions.any (fun c => hasBit c.types typeAreaBit && c.condition.evaluate mapWayArea))
      = true
    ∧ cfgWayArea.getWayAreaTypeId mapWayArea = (true, typeA.id, typeIgnoreId) := by
  decide

/-- C3: a short read inside a name-tag entry of
`TypeConfig::LoadFromDataFile` does not abort the load at that entry:
on a stream that ends right after declaring one name-tag entry, the
failed entry is still registered (the reserved empty tag is flipped to
external and a priority mapping is recorded) and the load only fails
later, at the following section header — refuting the claimed
"aborts the load rather than being ignored and processing
continuing". -/
theorem claim_C3_name_tag_short_read_continues :
    (cfgFresh.loadFromDataFile streamShortNameTag).1 = false
    ∧ (cfgFresh.loadFromDataFile streamShortNameTag).2.nameTagIdToPrioMap = [(0, 0)]
    ∧ (cfgFresh.loadFromDataFile streamShortNameTag).2.tags = [⟨0, "", false⟩] := by
  decide

/-- C7: `WidthFeature::Parse` turns "2,5m" into the stored value 3 and
warns on "abc", but its range test `w<0 && w>255.5` is vacuous, so the
out-of-range input "300" is stored (as `(uint8_t)floor(300.5)`, i.e.
44 under the modelled modulo-256 conversion) instead of producing a
warning and no value. -/
theorem claim_C7_width_parse :
    widthParseString "2,5m" = ParseOutcome.value 3
    ∧ widthParseString "abc" = ParseOutcome.warning
    ∧ widthParseString "300" = ParseOutcome.value 44 := by
  decide

/-- C6: condition evaluation is total and pure over every tag map: on
a map without the tag, `Exists`, both `Compare` forms and
set-membership evaluate to false; an integer `Compare` on a present but
non-numeric value is false; an empty `And` is true and an empty `Or`
is false on any map. -/
theorem claim_C6_condition_evaluation (m m' : TagMap) (t : TagId)
    (op : BinaryOperator) (v : String) (n : Nat) (vals : List String) (s : String)
    (hmiss : assocFind t m = none)
    (hpresent : assocFind t m' = some s)
    (hnonnum : stringToNumberNat s = none) :
    (TagCondition.tagExists t).evaluate m = false
    ∧ (TagCondition.binaryStr t op v).evaluate m = false
    ∧ (TagCondition.binaryNum t op n).evaluate m = false
    ∧ (TagCondition.isIn t vals).evaluate m = false
    ∧ (TagCondition.binaryNum t op n).evaluate m' = false
    ∧ (∀ mm : TagMap, (TagCondition.boolAnd []).evaluate mm = true)
    ∧ (∀ mm : TagMap, (TagCondition.boolOr []).evaluate mm = false) := by
  refine ⟨?_, ?_, ?_, ?_, ?_, ?_, ?_⟩ <;>
    simp [TagCondition.evaluate, evalAll, evalAny, hmiss, hpresent, hnonnum]

/-- C6 witness: the theorem applied to the empty map, the map
`[(0, "abc")]` and the non-numeric value "abc". -/
theorem claim_C6_condition_evaluation_witness :
    (TagCondition.tagExists 0).evaluate [] = false
    ∧ (TagCondition.binaryStr 0 BinaryOperator.equal "x").evaluate [] = false
    ∧ (TagCondition.binaryNum 0 BinaryOperator.equal 5).evaluate [] = false
    ∧ (TagCondition.isIn 0 ["y"]).evaluate [] = false
    ∧ (TagCondition.binaryNum 0 BinaryOperator.equal 5).evaluate [(0, "abc")] = false
    ∧ (∀ mm : TagMap, (TagCondition.boolAnd []).evaluate mm = true)
    ∧ (∀ mm : TagMap, (TagCondition.boolOr []).evaluate mm = false) :=
  claim_C6_condition_evaluation [] [(0, "abc")] 0 BinaryOperator.equal "x" 5 ["y"] "abc"
    (by decide) (by decide) (by decide)

/-- C8: for a type with all three default routing flags,
`AccessFeature::Parse` on a lone `access=no` stores the mask with all
six mode-direction bits clear; on a lone `oneway=yes` it stores the
mask keeping both foot bits and the forward bicycle/car bits and
clearing the backward bicycle/car bits; and in general a value is
stored only when the computed mask differs from the type-default
mask. -/
theorem claim_C8_access_parse :
    accessParse true true true [(tagAccessId, "no")] = some 0
    ∧ accessParse true true true [(tagOnewayId, "yes")]
        = some (footForward ||| footBackward ||| bicycleForward ||| carForward ||| onewayForward)
    ∧ ∀ (canFoot canBike canCar : Bool) (tags : TagMap) (mask : Nat),
        accessParse canFoot canBike canCar tags = some mask →
        mask ≠ defaultAccessMask canFoot canBike canCar := by
  refine ⟨by decide, by decide, ?_⟩
  intro canFoot canBike canCar tags mask h
  unfold accessParse at h
  by_cases hx : accessComputed canFoot canBike canCar tags
      = defaultAccessMask canFoot canBike canCar
  · simp [hx] at h
  · simp only [ne_eq, hx, not_false_eq_true, if_true] at h
    cases h
    exact hx

/-- C8 witness: the general emission condition applied at the concrete
`access=no` map. -/
theorem claim_C8_access_parse_witness :
    (0 : Nat) ≠ defaultAccessMask true true true :=
  claim_C8_access_parse.2.2 true true true [(tagAccessId, "no")] 0 (by decide)

/-- C10: `TypeConfig::AddTypeInfo` with a type whose name is already
registered is a silent no-op: the whole config (type list, name and id
indices, next-type-id counter) is returned unchanged. -/
theorem claim_C10_add_duplicate_type_noop (cfg : TypeConfig) (t : TypeInfo)
    (h : (assocFind t.name cfg.nameToTypeMap).isSome = true) :
    cfg.addTypeInfo t = some cfg := by
  unfold TypeConfig.addTypeInfo
  simp [h]

/-- C10 witness: adding another type named "existing" to a config that
already has one leaves the config untouched. -/
theorem claim_C10_add_duplicate_type_noop_witness :
    cfgWithType.addTypeInfo { id := 7, name := "existing", canBeNode := true } = some cfgWithType :=
  claim_C10_add_duplicate_type_noop cfgWithType _ (by decide)

/-- The type scan of `GetNodeType` is the first type, in registration
order, that can be a node, has conditions, and has a matching
node-scoped condition. -/
theorem findNodeType_eq_find (m : TagMap) : ∀ ts : List TypeInfo,
    findNodeType m ts
      = ts.find? (fun t =>
          t.canBeNode && t.hasConditions && t.conditions.any (nodeCondMatches m))
  | [] => rfl
  | t :: ts => by
      cases hc : t.hasConditions <;> cases hn : t.canBeNode <;>
        cases ha : t.conditions.any (nodeCondMatches m) <;>
        simp [findNodeType, List.find?, hc, hn, ha, findNodeType_eq_find m ts]

/-- C4: `GetNodeType` computes exactly the classifier the spec words
describe: iterate declared types in registration order, skip those
that cannot be nodes or have no conditions, return the first whose
node-scoped condition list has a condition evaluating true; the empty
tag map, and a scan without match, give the reserved ignore type.
Earlier-registered types therefore always win, and the function is
deterministic and total by construction. -/
theorem claim_C4_node_classification (cfg : TypeConfig) (m : TagMap) :
    cfg.getNodeType m = specClassifyNode cfg m := by
  unfold TypeConfig.getNodeType specClassifyNode
  cases he : m.isEmpty
  · rw [findNodeType_eq_find]
    cases hf : List.find? (fun t =>
        t.canBeNode && t.hasConditions && t.conditions.any (nodeCondMatches m)) cfg.types <;>
      simp [he, hf]
  · simp [he]

/-- `modifyIdx` rewrites exactly the addressed position. -/
theorem modifyIdx_get_self {α : Type} (f : α → α) :
    ∀ (l : List α) (i : Nat), (modifyIdx l i f).get? i = (l.get? i).map f
  | [], _ => by simp [modifyIdx]
  | a :: l, 0 => by simp [modifyIdx]
  | a :: l, i + 1 => by
      simpa [modifyIdx] using modifyIdx_get_self f l i

/-- C5: tag registration is idempotent and promotion one-way: an
existing name makes the internal variant return its id with the config
untouched (so an external tag is never flipped back); the external
variant on an existing name flips exactly that tag to external in
place, keeping its id and name; a fresh name gets the next sequential
id (the tag count) from either variant; and with the reserved empty
tag interned at id 0, every fresh id is at least 1. -/
theorem claim_C5_tag_registration (cfg : TypeConfig) (tagName : String)
    (hwf : cfg.tagsWellFormed) :
    (∀ id, assocFind tagName cfg.stringToTagMap = some id →
        cfg.registerTagForInternalUse tagName = (id, cfg))
    ∧ (∀ id, assocFind tagName cfg.stringToTagMap = some id →
        cfg.registerTagForExternalUse tagName
          = (id, { cfg with tags := modifyIdx cfg.tags id TagInfo.setToExternal })
        ∧ (cfg.registerTagForExternalUse tagName).2.tags.get? id
            = some ⟨id, tagName, false⟩)
    ∧ (assocFind tagName cfg.stringToTagMap = none →
        (cfg.registerTagForInternalUse tagName).1 = cfg.tags.length
        ∧ (cfg.registerTagForInternalUse tagName).2.nextTagId = cfg.tags.length + 1
        ∧ (cfg.registerTagForExternalUse tagName).1 = cfg.tags.length
        ∧ (cfg.registerTagForExternalUse tagName).2.nextTagId = cfg.tags.length + 1)
    ∧ (assocFind "" cfg.stringToTagMap = some 0 → 1 ≤ cfg.tags.length) := by
  obtain ⟨hnext, hmap⟩ := hwf
  refine ⟨?_, ?_, ?_, ?_⟩
  · intro id h
    simp [TypeConfig.registerTagForInternalUse, h]
  · intro id h
    have heq : cfg.registerTagForExternalUse tagName
        = (id, { cfg with tags := modifyIdx cfg.tags id TagInfo.setToExternal }) := by
      simp [TypeConfig.registerTagForExternalUse, h]
    refine ⟨heq, ?_⟩
    obtain ⟨flag, hget⟩ := hmap (tagName, id) (assocFind_mem h)
    rw [heq]
    simp only []
    rw [modifyIdx_get_self, hget]
    rfl
  · intro h
    simp [TypeConfig.registerTagForInternalUse, TypeConfig.registerTagForExternalUse, h, hnext]
  · intro h
    obtain ⟨flag, hget⟩ := hmap ("", 0) (assocFind_mem h)
    cases htags : cfg.tags with
    | nil => rw [htags] at hget; simp at hget
    | cons a l => simp [htags]

/-- C5 witness: on the constructor-fresh registry, re-registering the
reserved empty tag returns id 0 and leaves the config unchanged, and a
fresh name gets id `tags.length` (that is 1) from the internal
variant; the bootstrap invariant gives `1 ≤ tags.length`. -/
theorem claim_C5_tag_registration_witness :
    cfgFresh.registerTagForInternalUse "" = (0, cfgFresh)
    ∧ (cfgFresh.registerTagForInternalUse "name").1 = cfgFresh.tags.length
    ∧ 1 ≤ cfgFresh.tags.length :=
  ⟨(claim_C5_tag_registration cfgFresh "" (by constructor <;> decide)).1 0 (by decide),
   ((claim_C5_tag_registration cfgFresh "name" (by constructor <;> decide)).2.2.1 (by decide)).1,
   (claim_C5_tag_registration cfgFresh "" (by constructor <;> decide)).2.2.2 (by decide)⟩

/-- Reading back exactly the bytes the writer emitted recovers them
and leaves the rest of the stream. -/
theorem readBytes_append (rest : List Token) :
    ∀ bl : List Nat,
      readBytes bl.length ⟨bl.map Token.u8 ++ rest, false⟩ = (some bl, ⟨rest, false⟩)
  | [] => rfl
  | b :: bl => by
      simp [readBytes, Scanner.readU8, readBytes_append rest bl]

/-- Each feature's `Read` recovers exactly the value its `Write`
serialized, leaving the rest of the stream. -/
theorem readValue_writeTokens (v : FValue) (rest : List Token) :
    v.kind.readValue ⟨v.writeTokens ++ rest, false⟩ = (some v, ⟨rest, false⟩) := by
  cases v <;>
    simp [FValue.kind, FValue.writeTokens, FeatureKind.readValue,
      Scanner.readStr, Scanner.readU8, Scanner.readI8]

/-- The payload read loop recovers exactly the value list the payload
write loop serialized, for any well-formed value assignment. -/
theorem readValuesLoop_writeValuesTokens (bytes : List Nat) (rest : List Token) :
    ∀ (ks : List FeatureKind) (ovs : List (Option FValue)) (idx : Nat),
      valuesMatch bytes idx ks ovs = true →
      readValuesLoop bytes idx ks ⟨writeValuesTokens bytes idx ks ovs ++ rest, false⟩
        = (some ovs, ⟨rest, false⟩)
  | [], [], idx, _ => rfl
  | [], _ :: _, idx, h => by simp [valuesMatch] at h
  | _ :: _, [], idx, h => by simp [valuesMatch] at h
  | k :: ks, ov :: ovs, idx, h => by
      cases ov with
      | none =>
          rw [valuesMatch, Bool.and_eq_true] at h
          obtain ⟨hhead, htail⟩ := h
          have hdis : testBitBytes bytes idx = false ∨ k.hasValue = false := by
            simpa using hhead
          have hb : (testBitBytes bytes idx && k.hasValue) = false := by
            rcases hdis with h1 | h1 <;> simp [h1]
          have ih := readValuesLoop_writeValuesTokens bytes rest ks ovs (idx + 1) htail
          simp [writeValuesTokens, readValuesLoop, hb, ih]
      | some v =>
          rw [valuesMatch, Bool.and_eq_true] at h
          obtain ⟨hhead, htail⟩ := h
          have hhead2 : ((testBitBytes bytes idx && k.hasValue) && decide (v.kind = k)) = true := by
            simpa using hhead
          rw [Bool.and_eq_true] at hhead2
          obtain ⟨hb, hkind⟩ := hhead2
          have hkind2 : v.kind = k := of_decide_eq_true hkind
          have ih := readValuesLoop_writeValuesTokens bytes rest ks ovs (idx + 1) htail
          have hread := readValue_writeTokens v (writeValuesTokens bytes (idx + 1) ks ovs ++ rest)
          rw [hkind2] at hread
          simp [writeValuesTokens, readValuesLoop, hb, List.append_assoc, hread, ih]

/-- C2: writing a well-formed populated buffer and reading the stream
back into a fresh buffer bound to the same type reproduces the
presence bitset byte for byte and every stored feature value exactly
(the buffers are equal, so each present payload value compares equal);
moreover the serialized form is the bitset bytes first, then the
payloads in schema order. -/
theorem claim_C2_buffer_roundtrip (b : FeatureValueBuffer) (rest : List Token)
    (h : b.wellFormed = true) :
    bufferRead b.ftype ⟨b.writeTokens ++ rest, false⟩ = (some b, ⟨rest, false⟩)
    ∧ b.writeTokens
        = b.featureBits.map Token.u8 ++ writeValuesTokens b.featureBits 0 b.ftype b.values := by
  unfold FeatureValueBuffer.wellFormed at h
  rw [Bool.and_eq_true, decide_eq_true_eq] at h
  obtain ⟨hlen, hvm⟩ := h
  refine ⟨?_, rfl⟩
  unfold bufferRead FeatureValueBuffer.writeTokens
  rw [← hlen, List.append_assoc,
    readBytes_append (writeValuesTokens b.featureBits 0 b.ftype b.values ++ rest) b.featureBits]
  simp only []
  rw [readValuesLoop_writeValuesTokens b.featureBits rest b.ftype b.values 0 hvm]

/-- C2 witness: the round trip evaluated on a concrete populated
buffer (a name value, a present marker bit, an access value). -/
theorem claim_C2_buffer_roundtrip_witness :
    bufferRead bufEx.ftype ⟨bufEx.writeTokens ++ [Token.num 9], false⟩
      = (some bufEx, ⟨[Token.num 9], false⟩) :=
  (claim_C2_buffer_roundtrip bufEx [Token.num 9] (by decide)).1

/-- C9 counterexample: two zero-payload features (the marker features
`Bridge` and `Tunnel`, whose `GetValueSize()` is 0 in the source) have
distinct names but receive the same offset 0, so the offsets of an
`AddFeature` sequence are not strictly increasing. -/
theorem claim_C9_offsets_not_strictly_increasing :
    (TypeInfo.addFeatures {} [bridgeDesc, tunnelDesc]).map TypeInfo.offsets = some [0, 0]
    ∧ ¬ List.Chain' (fun a b => a < b) [0, 0] := by
  constructor
  · rfl
  · simp [List.chain'_cons]

theorem roundUp_ge (n : Nat) : n ≤ roundUp n := by
  unfold roundUp alignment
  have h := Nat.div_add_mod n 8
  split <;> omega

theorem roundUp_mod (n : Nat) : roundUp n % alignment = 0 := by
  unfold roundUp alignment
  have h := Nat.div_add_mod n 8
  split
  · simp [Nat.mul_mod_left]
  · omega

theorem roundUp_gt (n s : Nat) (h : 0 < s) : n < roundUp (n + s) := by
  unfold roundUp alignment
  have h2 := Nat.div_add_mod (n + s) 8
  split <;> omega

/-- A fresh feature name makes `AddFeature` succeed with exactly one
appended instance. -/
theorem addFeature_of_fresh (t : TypeInfo) (f : FeatureDesc)
    (hf : t.featureSet.contains f.fname = false) :
    t.addFeature f = some
      { t with features := t.features ++ [(f, t.nextOffset)],
               featureSet := t.featureSet ++ [f.fname] } := by
  unfold TypeInfo.addFeature
  rw [hf]
  rfl

/-- The new feature instance appended by a successful `AddFeature`. -/
theorem addFeature_eq (t : TypeInfo) (f : FeatureDesc) (t' : TypeInfo)
    (h : t.addFeature f = some t') :
    t'.features = t.features ++ [(f, t.nextOffset)]
    ∧ t'.featureSet = t.featureSet ++ [f.fname] := by
  unfold TypeInfo.addFeature at h
  split at h
  · exact Option.noConfusion h
  · injection h with h2
    rw [← h2]
    exact ⟨rfl, rfl⟩

/-- Appending a distinct name to a list not containing `a` still does
not contain `a`. -/
theorem contains_append_false {l : List String} {a b : String}
    (h1 : l.contains a = false) (h2 : a ≠ b) : (l ++ [b]).contains a = false := by
  rw [Bool.eq_false_iff] at h1 ⊢
  intro hc
  rcases List.mem_append.mp (List.elem_iff.mp hc) with hl | hr
  · exact h1 (List.elem_iff.mpr hl)
  · exact h2 (by simpa using hr)

/-- A successful `AddFeature` keeps the layout invariant. -/
theorem addFeature_layout (t : TypeInfo) (f : FeatureDesc) (t' : TypeInfo)
    (h : t.addFeature f = some t') (hok : layoutOk t) : layoutOk t' := by
  obtain ⟨hfeat, _⟩ := addFeature_eq t f t' h
  obtain ⟨hhead, halign, hchain⟩ := hok
  refine ⟨?_, ?_, ?_⟩
  · intro p hp
    rw [hfeat] at hp
    cases hf : t.features with
    | nil =>
        rw [hf] at hp
        simp at hp
        obtain rfl : (f, t.nextOffset) = p := hp
        show t.nextOffset = 0
        unfold TypeInfo.nextOffset
        rw [hf]
        rfl
    | cons a l =>
        rw [hf] at hp
        simp at hp
        exact hhead p (by rw [hf]; simpa using hp)
  · intro p hp
    rw [hfeat] at hp
    rcases List.mem_append.mp hp with hold | hnew
    · exact halign p hold
    · obtain rfl : p = (f, t.nextOffset) := by simpa using hnew
      show t.nextOffset % alignment = 0
      unfold TypeInfo.nextOffset
      cases hf : t.features.getLast? with
      | none => rfl
      | some last => exact roundUp_mod _
  · rw [hfeat, List.chain'_append]
    refine ⟨hchain, List.chain'_singleton _, ?_⟩
    intro x hx y hy
    obtain rfl : (f, t.nextOffset) = y := by simpa using hy
    have hlast : t.features.getLast? = some x := hx
    have hnext : t.nextOffset = roundUp (x.2 + x.1.valueSize) := by
      unfold TypeInfo.nextOffset
      rw [hlast]
    refine ⟨by rw [hnext], ?_, ?_⟩
    · show x.2 ≤ t.nextOffset
      rw [hnext]
      exact le_trans (Nat.le_add_right _ _) (roundUp_ge _)
    · intro hs
      show x.2 < t.nextOffset
      rw [hnext]
      exact roundUp_gt _ _ hs

/-- `AddFeature` sequences from all-fresh distinct names succeed and
produce exactly the spec's offset recurrence, preserving the layout
invariant. -/
theorem addFeatures_spec :
    ∀ (fs : List FeatureDesc) (t : TypeInfo),
      (∀ g ∈ fs, t.featureSet.contains g.fname = false) →
      (fs.map FeatureDesc.fname).Nodup →
      ∃ t', t.addFeatures fs = some t'
        ∧ t'.offsets = t.offsets ++ specOffsetsFrom t.nextOffset fs
        ∧ (layoutOk t → layoutOk t')
  | [], t, _, _ => ⟨t, rfl, by simp [specOffsetsFrom], fun hk => hk⟩
  | f :: fs, t, hfresh, hnodup => by
      have hf : t.featureSet.contains f.fname = false := hfresh f (by simp)
      obtain ⟨t1, hstep⟩ : ∃ t1, t.addFeature f = some t1 := ⟨_, addFeature_of_fresh t f hf⟩
      obtain ⟨hfeat1, hfs1⟩ := addFeature_eq t f t1 hstep
      have hsplit : (∀ x ∈ fs, ¬x.fname = f.fname) ∧ (fs.map FeatureDesc.fname).Nodup := by
        simpa using hnodup
      have hfresh1 : ∀ g ∈ fs, t1.featureSet.contains g.fname = false := by
        intro g hg
        rw [hfs1]
        exact contains_append_false (hfresh g (by simp [hg])) (hsplit.1 g hg)
      obtain ⟨t', hrun, hoffs, hlay⟩ := addFeatures_spec fs t1 hfresh1 hsplit.2
      refine ⟨t', ?_, ?_, ?_⟩
      · unfold TypeInfo.addFeatures
        rw [hstep]
        exact hrun
      · have hoff1 : t1.offsets = t.offsets ++ [t.nextOffset] := by
          unfold TypeInfo.offsets
          rw [hfeat1]
          simp
        have hnext1 : t1.nextOffset = roundUp (t.nextOffset + f.valueSize) := by
          unfold TypeInfo.nextOffset
          rw [hfeat1, List.getLast?_concat]
          rfl
        rw [hoffs, hoff1, hnext1, specOffsetsFrom, List.append_assoc]
        rfl
      · intro hk
        exact hlay (addFeature_layout t f t1 hstep hk)

/-- C9 (amended): a successful `AddFeature` preserves the layout
invariant — the first offset is 0, every offset is aligned to the
platform word alignment, and each following offset is the previous
offset plus its feature's payload size rounded up to that alignment,
hence never smaller and strictly larger whenever that payload size is
non-zero; a feature whose name already exists on the type is rejected;
and every sequence of `AddFeature` calls with distinct feature names
from a fresh type succeeds and realizes exactly that recurrence. -/
theorem claim_C9_offset_layout :
    (∀ (t : TypeInfo) (f : FeatureDesc) (t' : TypeInfo),
        t.addFeature f = some t' → layoutOk t → layoutOk t')
    ∧ (∀ (t : TypeInfo) (f : FeatureDesc),
        f.fname ∈ t.featureSet → t.addFeature f = none)
    ∧ (∀ fs : List FeatureDesc, (fs.map FeatureDesc.fname).Nodup →
        ∃ t', TypeInfo.addFeatures {} fs = some t'
          ∧ t'.offsets = specOffsetsFrom 0 fs
          ∧ layoutOk t') := by
  refine ⟨addFeature_layout, ?_, ?_⟩
  · intro t f hmem
    unfold TypeInfo.addFeature
    rw [if_pos (List.elem_iff.mpr hmem)]
  · intro fs hnodup
    obtain ⟨t', hrun, hoffs, hlay⟩ := addFeatures_spec fs {} (by
      intro g _
      rfl) hnodup
    refine ⟨t', hrun, ?_, ?_⟩
    · simpa using hoffs
    · exact hlay ⟨by intro p hp; simp at hp, by intro p hp; simp at hp, List.chain'_nil⟩

/-- C9 witness: the duplicate rejection applied to a type already
carrying "Bridge", and the layout conclusion applied to a concrete
two-feature sequence. -/
theorem claim_C9_offset_layout_witness :
    typeWithBridge.addFeature bridgeDesc = none
    ∧ ∃ t', TypeInfo.addFeatures {} [⟨"Name", 32⟩, bridgeDesc] = some t'
        ∧ t'.offsets = specOffsetsFrom 0 [⟨"Name", 32⟩, bridgeDesc]
        ∧ layoutOk t' :=
  ⟨claim_C9_offset_layout.2.1 typeWithBridge bridgeDesc (by decide),
   claim_C9_offset_layout.2.2 [⟨"Name", 32⟩, bridgeDesc] (by decide)⟩

end Osmscout
